import Mathlib

/-!
# Post service: request handlers over a document collection

A shallow embedding of `post/post_server/server.go`.  The four handlers
(`GetPosts`, `ReadPost`, `UpdatePost`, `DeletePost`) are state-passing functions
over the collection they talk to.  The MongoDB driver and the gRPC stream are
external collaborators; the parts of them the handlers rely on are modelled
below and marked as such.

Status messages (`fmt.Sprintf(...)`) and console output (`fmt.Println`) are left
out: only the status code of an error is kept.
-/

namespace PostService

/-! ## Identifiers: `primitive.ObjectID`, `ObjectIDFromHex`, `Hex` -/

/-- The driver's `primitive.ObjectID` is `[12]byte`; here the list of its bytes. -/
abbrev ObjectID := List Nat

/-- The driver's `primitive.NilObjectID`: twelve zero bytes. -/
def NilObjectID : ObjectID := List.replicate 12 0

/-- Errors the driver hands back to the handlers. -/
inductive DriverError where
  /-- `primitive.ErrInvalidHex` or a `hex` decoding error. -/
  | ErrInvalidHex
  /-- `mongo.ErrNoDocuments`: the filter matched nothing. -/
  | ErrNoDocuments
  /-- the call did not reach the server or its answer was lost. -/
  | network
  /-- the document does not unmarshal into the target struct. -/
  | decode
  /-- the server rejected a replacement that alters `_id`. -/
  | immutableField
  deriving DecidableEq

/-- Go `encoding/hex`, `fromHexChar`: the value of one hex digit, both cases accepted. -/
def fromHexChar (c : Char) : Option Nat :=
  if '0' ≤ c ∧ c ≤ '9' then some (c.toNat - '0'.toNat)
  else if 'a' ≤ c ∧ c ≤ 'f' then some (c.toNat - 'a'.toNat + 10)
  else if 'A' ≤ c ∧ c ≤ 'F' then some (c.toNat - 'A'.toNat + 10)
  else none

/-- Go `encoding/hex`, `Decode`: two digits per byte; an odd digit count or a
character that is no hex digit is an error. -/
def hexDecode : List Char → Option (List Nat)
  | [] => some []
  | [_] => none
  | a :: b :: rest =>
    match fromHexChar a, fromHexChar b, hexDecode rest with
    | some hi, some lo, some tl => some ((hi * 16 + lo) :: tl)
    | _, _, _ => none

/-- Go `encoding/hex`, `hextable`. -/
def hextable : String := "0123456789abcdef"

/-- Go `encoding/hex`, `Encode`: `hextable[b >> 4]`, `hextable[b & 0x0f]` per byte. -/
def hexEncode : List Nat → List Char
  | [] => []
  | b :: bs => hextable.data.getD (b / 16) '0' :: hextable.data.getD (b % 16) '0' :: hexEncode bs

/-- The driver's `primitive.ObjectIDFromHex`: the string must be 24 bytes long
and hex-decode to the 12 bytes of the identifier. -/
def ObjectIDFromHex (s : String) : Except DriverError ObjectID :=
  if s.utf8ByteSize ≠ 24 then .error .ErrInvalidHex
  else
    match hexDecode s.data with
    | none => .error .ErrInvalidHex
    | some oid => .ok oid

/-- The driver's `ObjectID.Hex`: `hex.EncodeToString(id[:])`. -/
def Hex (id : ObjectID) : String := String.mk (hexEncode id)

/-! ## Records -/

/-- The `postItem` struct of `server.go`. -/
structure postItem where
  ID : ObjectID
  UserID : String
  Title : String
  Body : String
  deriving DecidableEq

/-- The wire message `postpb.Post`. -/
structure Post where
  Id : String
  UserId : String
  Title : String
  Body : String
  deriving DecidableEq

/-- The function `dataToPostPb` of `server.go`. -/
def dataToPostPb (data : postItem) : Post :=
  { Id := Hex data.ID, UserId := data.UserID, Title := data.Title, Body := data.Body }

/-- The gRPC status codes the handlers use. -/
inductive Code where
  | InvalidArgument
  | NotFound
  | Internal
  deriving DecidableEq

/-! ## The collection -/

/-- A stored BSON document, as far as the handlers can observe it: its `_id`,
and the `user_id`, `title` and `body` it unmarshals to.  `fields = none` stands
for a document that does not unmarshal into `postItem` (a field of another
BSON type). -/
structure Document where
  id : ObjectID
  fields : Option (String × String × String)
  deriving DecidableEq

/-- The driver calls the handlers issue. -/
inductive StoreCall where
  | Find
  | FindOne (oid : ObjectID)
  | ReplaceOne (oid : ObjectID) (data : postItem)
  | DeleteOne (oid : ObjectID)
  | CursorNext
  | CursorClose
  deriving DecidableEq

/-- The collection the package variable `collection` points to, together with
what the environment decides about it: `faults` gives the outcome of the
upcoming driver calls in order (`true`: that call fails; past the end of the
list every call goes through), and `calls` records the driver calls issued so
far. -/
structure Collection where
  docs : List Document
  faults : List Bool
  calls : List StoreCall
  deriving DecidableEq

/-- Issue one driver call: record it and take its outcome from the schedule. -/
def Collection.issue (c : Collection) (call : StoreCall) : Bool × Collection :=
  (c.faults.headD false, { c with faults := c.faults.tail, calls := c.calls ++ [call] })

/-- Unmarshal a stored document into a `postItem` (`Decode`). -/
def decodeDoc (d : Document) : Except DriverError postItem :=
  match d.fields with
  | none => .error .decode
  | some (u, t, b) => .ok { ID := d.id, UserID := u, Title := t, Body := b }

/-- The driver's `collection.FindOne` with filter `{"_id": oid}` followed by
`SingleResult.Decode`: the first document with that `_id`, unmarshalled. -/
def FindOne (c : Collection) (oid : ObjectID) : Except DriverError postItem × Collection :=
  let r := c.issue (.FindOne oid)
  if r.1 then (.error .network, r.2)
  else
    match c.docs.find? (fun d => d.id = oid) with
    | none => (.error .ErrNoDocuments, r.2)
    | some d => (decodeDoc d, r.2)

/-- Marshal a `postItem` for a replacement: `_id` carries `omitempty`, so the
zero identifier is left out. -/
def marshalId (data : postItem) : Option ObjectID :=
  if data.ID = NilObjectID then none else some data.ID

/-- Replace the first document whose `_id` is `oid` by the marshalled `data`.
The server keeps the `_id` of the document it replaces and refuses a
replacement that carries another one.  Gives the new documents and the matched
count. -/
def replaceFirst (oid : ObjectID) (data : postItem) :
    List Document → Except DriverError (List Document × Nat)
  | [] => .ok ([], 0)
  | d :: ds =>
    if d.id = oid then
      match marshalId data with
      | some i =>
        if i = d.id then
          .ok ({ id := d.id, fields := some (data.UserID, data.Title, data.Body) } :: ds, 1)
        else .error .immutableField
      | none => .ok ({ id := d.id, fields := some (data.UserID, data.Title, data.Body) } :: ds, 1)
    else
      match replaceFirst oid data ds with
      | .ok (ds1, n) => .ok (d :: ds1, n)
      | .error e => .error e

/-- The driver's `collection.ReplaceOne` with filter `{"_id": oid}`. -/
def ReplaceOne (c : Collection) (oid : ObjectID) (data : postItem) :
    Except DriverError Nat × Collection :=
  let r := c.issue (.ReplaceOne oid data)
  if r.1 then (.error .network, r.2)
  else
    match replaceFirst oid data c.docs with
    | .ok (ds, n) => (.ok n, { r.2 with docs := ds })
    | .error e => (.error e, r.2)

/-- Remove the first document whose `_id` is `oid`; gives the documents left
and the deleted count. -/
def deleteFirst (oid : ObjectID) : List Document → List Document × Nat
  | [] => ([], 0)
  | d :: ds =>
    if d.id = oid then (ds, 1)
    else ((d :: (deleteFirst oid ds).1), (deleteFirst oid ds).2)

/-- The driver's `collection.DeleteOne` with filter `{"_id": oid}`: the
`DeletedCount` of the result, or an error. -/
def DeleteOne (c : Collection) (oid : ObjectID) : Except DriverError Nat × Collection :=
  let r := c.issue (.DeleteOne oid)
  if r.1 then (.error .network, r.2)
  else (.ok (deleteFirst oid c.docs).2, { r.2 with docs := (deleteFirst oid c.docs).1 })

/-! ## Unary handlers -/

/-- The handler `server.ReadPost`. -/
def ReadPost (c : Collection) (postId : String) : Except Code Post × Collection :=
  match ObjectIDFromHex postId with
  | .error _ => (.error .InvalidArgument, c)
  | .ok oid =>
    match FindOne c oid with
    | (.error _, c1) => (.error .NotFound, c1)
    | (.ok data, c1) => (.ok (dataToPostPb data), c1)

/-- The handler `server.UpdatePost`; `post` is the `Post` of the request. -/
def UpdatePost (c : Collection) (post : Post) : Except Code Post × Collection :=
  match ObjectIDFromHex post.Id with
  | .error _ => (.error .InvalidArgument, c)
  | .ok oid =>
    match FindOne c oid with
    | (.error _, c1) => (.error .NotFound, c1)
    | (.ok data, c1) =>
      let data1 : postItem :=
        { data with UserID := post.UserId, Title := post.Title, Body := post.Body }
      match ReplaceOne c1 oid data1 with
      | (.error _, c2) => (.error .Internal, c2)
      | (.ok _, c2) => (.ok (dataToPostPb data1), c2)

/-- The handler `server.DeletePost`; gives the `PostId` of the response. -/
def DeletePost (c : Collection) (postId : String) : Except Code String × Collection :=
  match ObjectIDFromHex postId with
  | .error _ => (.error .InvalidArgument, c)
  | .ok oid =>
    match DeleteOne c oid with
    | (.error _, c1) => (.error .Internal, c1)
    | (.ok deletedCount, c1) =>
      if deletedCount = 0 then (.error .NotFound, c1)
      else (.ok postId, c1)

/-! ## The streaming handler -/

/-- The server side of the response stream (`postpb.PostService_GetPostsServer`):
the items delivered so far, and the outcome of the upcoming `Send` calls in
order (`true`: that `Send` fails; past the end of the list every `Send` goes
through). -/
structure GetPostsServer where
  sent : List Post
  sendFaults : List Bool
  deriving DecidableEq

/-- One `stream.Send`: whether it failed, and the stream afterwards.  An item
whose `Send` fails is not delivered. -/
def GetPostsServer.Send (st : GetPostsServer) (item : Post) : Bool × GetPostsServer :=
  if st.sendFaults.headD false then (true, { st with sendFaults := st.sendFaults.tail })
  else (false, { sent := st.sent ++ [item], sendFaults := st.sendFaults.tail })

/-- The loop of `server.GetPosts` together with the `cursor.Err()` check after
it, over the documents the cursor has not visited yet.  `cursor.Next` is a
driver call: when it fails the loop ends and `cursor.Err()` is set. -/
def getPostsLoop :
    List Document → Collection → GetPostsServer → Except Code Unit × Collection × GetPostsServer
  | [], c, st =>
    let r := c.issue .CursorNext
    if r.1 then (.error .Internal, r.2, st) else (.ok (), r.2, st)
  | d :: rest, c, st =>
    let r := c.issue .CursorNext
    if r.1 then (.error .Internal, r.2, st)
    else
      match decodeDoc d with
      | .error _ => (.error .Internal, r.2, st)
      | .ok data =>
        let s := st.Send (dataToPostPb data)
        if s.1 then (.error .Internal, r.2, s.2)
        else getPostsLoop rest r.2 s.2

/-- The handler `server.GetPosts`.  The deferred `cursor.Close` runs on every
return after the cursor was obtained; its own error is only printed. -/
def GetPosts (c : Collection) (st : GetPostsServer) :
    Except Code Unit × Collection × GetPostsServer :=
  let r := c.issue .Find
  if r.1 then (.error .Internal, r.2, st)
  else
    let out := getPostsLoop c.docs r.2 st
    (out.1, (out.2.1.issue .CursorClose).2, out.2.2)

/-- Whether the `i`-th driver call from now on fails (`i = 0`: the next one). -/
def Collection.fails (c : Collection) (i : Nat) : Bool := c.faults.getD i false

/-- Whether the `i`-th `Send` from now on fails (`i = 0`: the next one). -/
def GetPostsServer.sendFails (st : GetPostsServer) (i : Nat) : Bool := st.sendFaults.getD i false

/-- The store invariant MongoDB maintains: `_id` is unique in a collection. -/
def Collection.uniqueIds (c : Collection) : Prop := (c.docs.map Document.id).Nodup

instance (c : Collection) : Decidable c.uniqueIds :=
  inferInstanceAs (Decidable (c.docs.map Document.id).Nodup)

/-- The collection after `n` further `cursor.Next` calls. -/
def Collection.afterNext (c : Collection) (n : Nat) : Collection :=
  { c with faults := c.faults.drop n, calls := c.calls ++ List.replicate n .CursorNext }

/-- The stream after the delivery of `items`. -/
def GetPostsServer.afterSent (st : GetPostsServer) (items : List Post) : GetPostsServer :=
  { sent := st.sent ++ items, sendFaults := st.sendFaults.drop items.length }

/-! ## Sample data -/

/-- The identifier written `abcdefabcdefabcdefabcdef`. -/
def sampleIdA : ObjectID := [171, 205, 239, 171, 205, 239, 171, 205, 239, 171, 205, 239]

/-- The identifier written `000000000000000000000002`. -/
def sampleIdB : ObjectID := [0, 0, 0, 0, 0, 0, 0, 0, 0, 0, 0, 2]

/-- A stored record. -/
def sampleDocA : Document := { id := sampleIdA, fields := some ("u1", "A", "a") }

/-- A second stored record. -/
def sampleDocB : Document := { id := sampleIdB, fields := some ("u2", "B", "b") }

/-- A collection of two records on which every driver call goes through. -/
def sampleCollection : Collection :=
  { docs := [sampleDocA, sampleDocB], faults := [], calls := [] }

/-- A collection whose only document carries the id `abcdefabcdefabcdefabcdef`
and does not unmarshal into `postItem`. -/
def undecodableCollection : Collection :=
  { docs := [{ id := sampleIdA, fields := none }], faults := [], calls := [] }

/-- The sample collection at a moment when the next driver call fails. -/
def unreachableCollection : Collection :=
  { docs := [sampleDocA, sampleDocB], faults := [true], calls := [] }

/-- A collection whose second document does not unmarshal into `postItem`. -/
def halfDecodableCollection : Collection :=
  { docs := [sampleDocA, { id := sampleIdB, fields := none }], faults := [], calls := [] }

/-- The sample collection at a moment when `Find` and the first `cursor.Next`
go through and the second `cursor.Next` fails. -/
def interruptedCollection : Collection :=
  { docs := [sampleDocA, sampleDocB], faults := [false, false, true], calls := [] }

/-! ## Hex encoding of identifiers -/

theorem char_bounds (c lo hi : Char) (h : lo ≤ c ∧ c ≤ hi) :
    lo.toNat ≤ c.toNat ∧ c.toNat ≤ hi.toNat := by
  obtain ⟨h1, h2⟩ := h
  rw [Char.le_def, UInt32.le_def] at h1 h2
  exact ⟨h1, h2⟩

theorem fromHexChar_lower (c : Char) (n : Nat) (h : fromHexChar c = some n) :
    n < 16 ∧ hextable.data.getD n '0' = c.toLower := by
  have hc : c = Char.ofNat c.toNat := (Char.ofNat_toNat c).symm
  unfold fromHexChar at h
  split_ifs at h with h1 h2 h3
  · have hb := char_bounds c _ _ h1
    have e1 : '0'.toNat = 48 := rfl
    have e2 : '9'.toNat = 57 := rfl
    rw [e1] at h
    rw [e1, e2] at hb
    obtain ⟨hb1, hb2⟩ := hb
    injection h with h
    subst h
    generalize c.toNat = k at hc hb1 hb2
    subst hc
    interval_cases k <;> exact ⟨by decide, by rfl⟩
  · have hb := char_bounds c _ _ h2
    have e1 : 'a'.toNat = 97 := rfl
    have e2 : 'f'.toNat = 102 := rfl
    rw [e1] at h
    rw [e1, e2] at hb
    obtain ⟨hb1, hb2⟩ := hb
    injection h with h
    subst h
    generalize c.toNat = k at hc hb1 hb2
    subst hc
    interval_cases k <;> exact ⟨by decide, by rfl⟩
  · have hb := char_bounds c _ _ h3
    have e1 : 'A'.toNat = 65 := rfl
    have e2 : 'F'.toNat = 70 := rfl
    rw [e1] at h
    rw [e1, e2] at hb
    obtain ⟨hb1, hb2⟩ := hb
    injection h with h
    subst h
    generalize c.toNat = k at hc hb1 hb2
    subst hc
    interval_cases k <;> exact ⟨by decide, by rfl⟩

theorem hexEncode_hexDecode_aux (n : Nat) :
    ∀ cs : List Char, cs.length ≤ n →
      ∀ bs, hexDecode cs = some bs → hexEncode bs = cs.map Char.toLower := by
  induction n with
  | zero =>
    intro cs hlen bs h
    have hnil : cs = [] := List.length_eq_zero.mp (Nat.le_zero.mp hlen)
    subst hnil
    simp [hexDecode] at h
    subst h
    rfl
  | succ n ih =>
    intro cs hlen bs h
    match cs, hlen, h with
    | [], _, h =>
      simp [hexDecode] at h
      subst h
      rfl
    | [_], _, h => simp [hexDecode] at h
    | a :: b :: rest, hlen, h =>
      rw [hexDecode] at h
      cases ha : fromHexChar a with
      | none => simp [ha] at h
      | some hi =>
        cases hb : fromHexChar b with
        | none => simp [ha, hb] at h
        | some lo =>
          cases hr : hexDecode rest with
          | none => simp [ha, hb, hr] at h
          | some tl =>
            simp only [ha, hb, hr, Option.some.injEq] at h
            subst h
            obtain ⟨hlt1, he1⟩ := fromHexChar_lower a hi ha
            obtain ⟨hlt2, he2⟩ := fromHexChar_lower b lo hb
            have d1 : (hi * 16 + lo) / 16 = hi := by omega
            have d2 : (hi * 16 + lo) % 16 = lo := by omega
            have hrest : rest.length ≤ n := by
              simp only [List.length_cons] at hlen
              omega
            simp only [hexEncode, d1, d2, he1, he2, ih rest hrest tl hr, List.map_cons]

theorem hexEncode_hexDecode (cs : List Char) (bs : List Nat) (h : hexDecode cs = some bs) :
    hexEncode bs = cs.map Char.toLower :=
  hexEncode_hexDecode_aux cs.length cs (Nat.le_refl _) bs h

theorem Hex_ObjectIDFromHex (s : String) (oid : ObjectID) (h : ObjectIDFromHex s = .ok oid) :
    Hex oid = s.map Char.toLower := by
  unfold ObjectIDFromHex at h
  split_ifs at h
  cases hd : hexDecode s.data with
  | none => simp [hd] at h
  | some bs =>
    simp only [hd, Except.ok.injEq] at h
    subst h
    rw [String.map_eq, Hex, hexEncode_hexDecode s.data bs hd]

/-! ## The collection primitives -/

theorem issue_fst (c : Collection) (call : StoreCall) : (c.issue call).1 = c.fails 0 := by
  cases c with
  | mk docs faults calls => cases faults <;> rfl

theorem issue_docs (c : Collection) (call : StoreCall) : (c.issue call).2.docs = c.docs := rfl

theorem issue_fails (c : Collection) (call : StoreCall) (i : Nat) :
    (c.issue call).2.fails i = c.fails (i + 1) := by
  cases c with
  | mk docs faults calls => cases faults <;> rfl

theorem find_of_absent (docs : List Document) (oid : ObjectID)
    (h : ∀ d ∈ docs, d.id ≠ oid) : docs.find? (fun d => d.id = oid) = none := by
  induction docs with
  | nil => rfl
  | cons x xs ih =>
    have hx : x.id ≠ oid := h x (List.mem_cons_self _ _)
    have hxs : ∀ d ∈ xs, d.id ≠ oid := fun d hd => h d (List.mem_cons_of_mem _ hd)
    simp [List.find?, hx, ih hxs]

theorem find_of_mem (docs : List Document) (d : Document)
    (hu : (docs.map Document.id).Nodup) (hd : d ∈ docs) :
    docs.find? (fun x => x.id = d.id) = some d := by
  induction docs with
  | nil => simp at hd
  | cons x xs ih =>
    rw [List.map_cons, List.nodup_cons] at hu
    rcases List.mem_cons.mp hd with h | h
    · subst h
      simp [List.find?]
    · have hne : x.id ≠ d.id := by
        intro e
        exact hu.1 (e ▸ List.mem_map_of_mem Document.id h)
      simp [List.find?, hne, ih hu.2 h]

theorem find_id (docs : List Document) (oid : ObjectID) (d : Document)
    (h : docs.find? (fun x => x.id = oid) = some d) : d.id = oid ∧ d ∈ docs := by
  have h1 := List.find?_some h
  exact ⟨by simpa using h1, List.mem_of_find?_eq_some h⟩

theorem replaceFirst_frame (oid : ObjectID) (data : postItem) (docs : List Document) :
    ∀ ds n, replaceFirst oid data docs = .ok (ds, n) →
      ds.filter (fun x => x.id ≠ oid) = docs.filter (fun x => x.id ≠ oid) := by
  induction docs with
  | nil =>
    intro ds n h
    simp [replaceFirst] at h
    rw [h.1]
  | cons x xs ih =>
    intro ds n h
    rw [replaceFirst] at h
    split_ifs at h with hx
    · cases hm : marshalId data with
      | none =>
        simp only [hm, Except.ok.injEq, Prod.mk.injEq] at h
        rw [← h.1]
        simp [List.filter, hx]
      | some i =>
        simp only [hm] at h
        split_ifs at h
        simp only [Except.ok.injEq, Prod.mk.injEq] at h
        rw [← h.1]
        simp [List.filter, hx]
    · cases hr : replaceFirst oid data xs with
      | error e => simp [hr] at h
      | ok r =>
        obtain ⟨ds1, n1⟩ := r
        simp only [hr, Except.ok.injEq, Prod.mk.injEq] at h
        rw [← h.1]
        have hrec := ih ds1 n1 hr
        simpa [List.filter, hx] using hrec

theorem replaceFirst_found (oid : ObjectID) (data : postItem) (docs : List Document)
    (d : Document) (hf : docs.find? (fun x => x.id = oid) = some d) (hid : data.ID = oid) :
    ∃ ds, replaceFirst oid data docs = .ok (ds, 1) ∧
      ds.find? (fun x => x.id = oid)
        = some { id := oid, fields := some (data.UserID, data.Title, data.Body) } ∧
      ds.map Document.id = docs.map Document.id := by
  induction docs with
  | nil => simp at hf
  | cons x xs ih =>
    rw [replaceFirst]
    by_cases hx : x.id = oid
    · have hm : marshalId data = none ∨ marshalId data = some x.id := by
        unfold marshalId
        split_ifs
        · exact Or.inl rfl
        · exact Or.inr (by rw [hid, hx])
      refine ⟨{ id := x.id, fields := some (data.UserID, data.Title, data.Body) } :: xs,
        ?_, ?_, ?_⟩
      · rcases hm with hm | hm
        · rw [if_pos hx, hm]
        · rw [if_pos hx, hm]
          simp only [if_true]
      · simp [List.find?, hx]
      · simp
    · have hf1 : xs.find? (fun x => x.id = oid) = some d := by
        simpa [List.find?, hx] using hf
      obtain ⟨ds, h1, h2, h3⟩ := ih hf1
      refine ⟨x :: ds, by simp only [hx, if_false, h1], ?_, ?_⟩
      · simpa [List.find?, hx] using h2
      · simp [h3]

theorem deleteFirst_frame (oid : ObjectID) (docs : List Document) :
    (deleteFirst oid docs).1.filter (fun x => x.id ≠ oid)
      = docs.filter (fun x => x.id ≠ oid) := by
  induction docs with
  | nil => rfl
  | cons x xs ih =>
    rw [deleteFirst]
    split_ifs with hx
    · simp [List.filter, hx]
    · simpa [List.filter, hx] using ih

theorem deleteFirst_zero (oid : ObjectID) (docs : List Document)
    (h : (deleteFirst oid docs).2 = 0) : (deleteFirst oid docs).1 = docs := by
  induction docs with
  | nil => rfl
  | cons x xs ih =>
    rw [deleteFirst] at h ⊢
    split_ifs at h ⊢ with hx
    show x :: (deleteFirst oid xs).1 = x :: xs
    rw [ih h]

theorem deleteFirst_absent (oid : ObjectID) (docs : List Document)
    (h : ∀ d ∈ docs, d.id ≠ oid) : deleteFirst oid docs = (docs, 0) := by
  induction docs with
  | nil => rfl
  | cons x xs ih =>
    have hx : x.id ≠ oid := h x (List.mem_cons_self _ _)
    have hxs : ∀ d ∈ xs, d.id ≠ oid := fun d hd => h d (List.mem_cons_of_mem _ hd)
    rw [deleteFirst, if_neg hx, ih hxs]

theorem deleteFirst_present (oid : ObjectID) (docs : List Document)
    (hu : (docs.map Document.id).Nodup) (d : Document) (hd : d ∈ docs) (hid : d.id = oid) :
    (deleteFirst oid docs).2 = 1 ∧ ∀ x ∈ (deleteFirst oid docs).1, x.id ≠ oid := by
  induction docs with
  | nil => simp at hd
  | cons x xs ih =>
    rw [List.map_cons, List.nodup_cons] at hu
    rw [deleteFirst]
    by_cases hx : x.id = oid
    · rw [if_pos hx]
      refine ⟨rfl, ?_⟩
      intro y hy e
      exact hu.1 (by rw [hx, ← e]; exact List.mem_map_of_mem Document.id hy)
    · rw [if_neg hx]
      have hd1 : d ∈ xs := by
        rcases List.mem_cons.mp hd with h | h
        · exact absurd (h ▸ hid) hx
        · exact h
      obtain ⟨h1, h2⟩ := ih hu.2 hd1
      refine ⟨h1, ?_⟩
      intro y hy
      rcases List.mem_cons.mp hy with h | h
      · rw [h]; exact hx
      · exact h2 y h

theorem decodeDoc_ok (d : Document) (data : postItem) (h : decodeDoc d = .ok data) :
    data.ID = d.id ∧ d.fields = some (data.UserID, data.Title, data.Body) := by
  unfold decodeDoc at h
  cases hf : d.fields with
  | none => simp [hf] at h
  | some v =>
    obtain ⟨u, t, b⟩ := v
    simp only [hf, Except.ok.injEq] at h
    subst h
    exact ⟨rfl, rfl⟩

theorem decodeDoc_of_fields (d : Document) (u t b : String) (h : d.fields = some (u, t, b)) :
    decodeDoc d = .ok { ID := d.id, UserID := u, Title := t, Body := b } := by
  unfold decodeDoc
  rw [h]

/-! ## The find-one call -/

theorem FindOne_snd (c : Collection) (oid : ObjectID) :
    (FindOne c oid).2 = (c.issue (.FindOne oid)).2 := by
  unfold FindOne
  dsimp only
  split_ifs
  · rfl
  · cases c.docs.find? (fun d => d.id = oid) <;> rfl

theorem FindOne_failed (c : Collection) (oid : ObjectID) (h : c.fails 0 = true) :
    (FindOne c oid).1 = .error .network := by
  unfold FindOne
  simp only [issue_fst, h, if_true]

theorem FindOne_absent (c : Collection) (oid : ObjectID) (hcall : c.fails 0 = false)
    (h : c.docs.find? (fun d => d.id = oid) = none) :
    (FindOne c oid).1 = .error .ErrNoDocuments := by
  unfold FindOne
  simp [issue_fst, hcall, h]

theorem FindOne_found (c : Collection) (oid : ObjectID) (d : Document)
    (hcall : c.fails 0 = false) (h : c.docs.find? (fun d => d.id = oid) = some d) :
    (FindOne c oid).1 = decodeDoc d := by
  unfold FindOne
  simp [issue_fst, hcall, h]

theorem FindOne_ok (c : Collection) (oid : ObjectID) (data : postItem)
    (h : (FindOne c oid).1 = .ok data) :
    c.fails 0 = false ∧
      ∃ d, c.docs.find? (fun d => d.id = oid) = some d ∧ decodeDoc d = .ok data := by
  cases hc : c.fails 0 with
  | true => rw [FindOne_failed c oid hc] at h; cases h
  | false =>
    refine ⟨rfl, ?_⟩
    cases hf : c.docs.find? (fun d => d.id = oid) with
    | none => rw [FindOne_absent c oid hc hf] at h; cases h
    | some d => exact ⟨d, rfl, by rw [FindOne_found c oid d hc hf] at h; exact h⟩

/-! ## The handlers, case by case -/

theorem ReadPost_eq (c : Collection) (postId : String) (oid : ObjectID)
    (hparse : ObjectIDFromHex postId = .ok oid) :
    ReadPost c postId =
      (match (FindOne c oid).1 with
        | .error _ => .error .NotFound
        | .ok data => .ok (dataToPostPb data),
       (c.issue (.FindOne oid)).2) := by
  unfold ReadPost
  rw [hparse, ← FindOne_snd]
  rcases hfo : FindOne c oid with ⟨r, c1⟩
  cases r <;> simp only [hfo]

theorem ReplaceOne_docs_filter (c : Collection) (oid : ObjectID) (data : postItem) :
    (ReplaceOne c oid data).2.docs.filter (fun x => x.id ≠ oid)
      = c.docs.filter (fun x => x.id ≠ oid) := by
  unfold ReplaceOne
  dsimp only
  split_ifs
  · rfl
  · cases hr : replaceFirst oid data c.docs with
    | error e => rfl
    | ok r =>
      obtain ⟨ds, n⟩ := r
      exact replaceFirst_frame oid data c.docs ds n hr

theorem ReplaceOne_found (c : Collection) (oid : ObjectID) (data : postItem) (d : Document)
    (hcall : c.fails 0 = false) (hf : c.docs.find? (fun x => x.id = oid) = some d)
    (hid : data.ID = oid) :
    ∃ ds, ReplaceOne c oid data
        = (.ok 1, { (c.issue (.ReplaceOne oid data)).2 with docs := ds }) ∧
      ds.find? (fun x => x.id = oid)
        = some { id := oid, fields := some (data.UserID, data.Title, data.Body) } ∧
      ds.map Document.id = c.docs.map Document.id := by
  obtain ⟨ds, h1, h2, h3⟩ := replaceFirst_found oid data c.docs d hf hid
  refine ⟨ds, ?_, h2, h3⟩
  unfold ReplaceOne
  simp [issue_fst, hcall, h1]

theorem ReplaceOne_ok (c : Collection) (oid : ObjectID) (data : postItem) (n : Nat)
    (h : (ReplaceOne c oid data).1 = .ok n) : c.fails 0 = false := by
  cases hc : c.fails 0 with
  | false => rfl
  | true =>
    unfold ReplaceOne at h
    simp [issue_fst, hc] at h

theorem UpdatePost_eq (c : Collection) (post : Post) (oid : ObjectID)
    (hparse : ObjectIDFromHex post.Id = .ok oid) :
    UpdatePost c post =
      match (FindOne c oid).1 with
      | .error _ => (.error .NotFound, (c.issue (.FindOne oid)).2)
      | .ok data =>
        match (ReplaceOne (c.issue (.FindOne oid)).2 oid
            { data with UserID := post.UserId, Title := post.Title, Body := post.Body }).1 with
        | .error _ => (.error .Internal, (ReplaceOne (c.issue (.FindOne oid)).2 oid
            { data with UserID := post.UserId, Title := post.Title, Body := post.Body }).2)
        | .ok _ => (.ok (dataToPostPb
            { data with UserID := post.UserId, Title := post.Title, Body := post.Body }),
            (ReplaceOne (c.issue (.FindOne oid)).2 oid
            { data with UserID := post.UserId, Title := post.Title, Body := post.Body }).2) := by
  unfold UpdatePost
  rw [hparse, ← FindOne_snd]
  rcases hfo : FindOne c oid with ⟨r, c1⟩
  cases r with
  | error e => simp only [hfo]
  | ok data =>
    simp only [hfo]
    rcases hro : ReplaceOne c1 oid
      { data with UserID := post.UserId, Title := post.Title, Body := post.Body } with ⟨r2, c2⟩
    cases r2 <;> simp only [hro]

theorem DeletePost_eq (c : Collection) (postId : String) (oid : ObjectID)
    (hparse : ObjectIDFromHex postId = .ok oid) :
    DeletePost c postId =
      if c.fails 0 then (.error .Internal, (c.issue (.DeleteOne oid)).2)
      else if (deleteFirst oid c.docs).2 = 0 then
        (.error .NotFound, { (c.issue (.DeleteOne oid)).2 with docs := (deleteFirst oid c.docs).1 })
      else (.ok postId, { (c.issue (.DeleteOne oid)).2 with docs := (deleteFirst oid c.docs).1 }) := by
  unfold DeletePost DeleteOne
  rw [hparse]
  simp only [issue_fst]
  cases c.fails 0 <;> simp

theorem invalid_id_rejected_aux (c : Collection) (post : Post) (e : DriverError)
    (h : ObjectIDFromHex post.Id = .error e) :
    ReadPost c post.Id = (.error .InvalidArgument, c) ∧
    UpdatePost c post = (.error .InvalidArgument, c) ∧
    DeletePost c post.Id = (.error .InvalidArgument, c) := by
  refine ⟨?_, ?_, ?_⟩
  · unfold ReadPost; rw [h]
  · unfold UpdatePost; rw [h]
  · unfold DeletePost; rw [h]

/-! ## Claims about the unary handlers -/

/-- C1: when the id string of a request does not parse (`ObjectIDFromHex` fails),
`ReadPost`, `UpdatePost` and `DeletePost` each return `InvalidArgument` and leave
the collection exactly as it was: no document changes and no driver call is
issued (the call record and the outcome schedule are untouched). -/
theorem invalid_id_rejected_before_store_access (c : Collection) (post : Post)
    (e : DriverError) (h : ObjectIDFromHex post.Id = .error e) :
    ReadPost c post.Id = (.error .InvalidArgument, c) ∧
    UpdatePost c post = (.error .InvalidArgument, c) ∧
    DeletePost c post.Id = (.error .InvalidArgument, c) :=
  invalid_id_rejected_aux c post e h

/-- C1 on the sample collection, for the id string `not-a-valid-id`. -/
theorem invalid_id_rejected_before_store_access_witness :
    ObjectIDFromHex "not-a-valid-id" = .error .ErrInvalidHex ∧
    ReadPost sampleCollection "not-a-valid-id" = (.error .InvalidArgument, sampleCollection) ∧
    UpdatePost sampleCollection ⟨"not-a-valid-id", "u9", "t", "b"⟩
      = (.error .InvalidArgument, sampleCollection) ∧
    DeletePost sampleCollection "not-a-valid-id" = (.error .InvalidArgument, sampleCollection) :=
  ⟨rfl, invalid_id_rejected_before_store_access sampleCollection
    ⟨"not-a-valid-id", "u9", "t", "b"⟩ .ErrInvalidHex rfl⟩

/-- C2, as the claim states it, fails: the id `ABCDEFABCDEFABCDEFABCDEF` parses,
matches the first sample record, and `ReadPost` answers with the id
`abcdefabcdefabcdefabcdef`, which is another string. -/
theorem ReadPost_upper_case_id_not_echoed :
    ObjectIDFromHex "ABCDEFABCDEFABCDEFABCDEF" = .ok sampleIdA ∧
    sampleDocA ∈ sampleCollection.docs ∧ sampleDocA.id = sampleIdA ∧
    (ReadPost sampleCollection "ABCDEFABCDEFABCDEFABCDEF").1
      = .ok { Id := "abcdefabcdefabcdefabcdef", UserId := "u1", Title := "A", Body := "a" } ∧
    "abcdefabcdefabcdefabcdef" ≠ "ABCDEFABCDEFABCDEFABCDEF" :=
  ⟨rfl, by decide, rfl, rfl, by decide⟩

/-- C2, amended: for an id string that parses and matches a stored record,
`ReadPost` succeeds (the find-one call going through) and returns that record
with, as id, the request id in lower case; so the returned id is the request id
whenever the request id has no upper-case digit. -/
theorem ReadPost_returns_lower_cased_id (c : Collection) (postId : String) (oid : ObjectID)
    (d : Document) (u t b : String)
    (hparse : ObjectIDFromHex postId = .ok oid) (hu : c.uniqueIds)
    (hd : d ∈ c.docs) (hid : d.id = oid) (hf : d.fields = some (u, t, b))
    (hcall : c.fails 0 = false) :
    (ReadPost c postId).1
      = .ok { Id := postId.toLower, UserId := u, Title := t, Body := b } ∧
    (postId.toLower = postId →
      (ReadPost c postId).1 = .ok { Id := postId, UserId := u, Title := t, Body := b }) := by
  have hfind : c.docs.find? (fun x => x.id = oid) = some d := by
    rw [← hid]
    exact find_of_mem c.docs d hu hd
  have h1 : (ReadPost c postId).1
      = .ok { Id := postId.toLower, UserId := u, Title := t, Body := b } := by
    rw [ReadPost_eq c postId oid hparse, FindOne_found c oid d hcall hfind,
      decodeDoc_of_fields d u t b hf]
    simp only [dataToPostPb, hid, Hex_ObjectIDFromHex postId oid hparse, String.toLower]
  refine ⟨h1, ?_⟩
  intro hlow
  rw [h1, hlow]

/-- C2, amended, on the sample collection: an upper-case id is answered in lower case, a lower-case id is echoed. -/
theorem ReadPost_returns_lower_cased_id_witness :
    (ReadPost sampleCollection "ABCDEFABCDEFABCDEFABCDEF").1
      = .ok { Id := "ABCDEFABCDEFABCDEFABCDEF".toLower,
              UserId := "u1", Title := "A", Body := "a" } ∧
    (ReadPost sampleCollection "abcdefabcdefabcdefabcdef").1
      = .ok { Id := "abcdefabcdefabcdefabcdef", UserId := "u1", Title := "A", Body := "a" } :=
  ⟨(ReadPost_returns_lower_cased_id sampleCollection "ABCDEFABCDEFABCDEFABCDEF" sampleIdA
      sampleDocA "u1" "A" "a" rfl (by decide) (by decide) rfl rfl rfl).1,
   (ReadPost_returns_lower_cased_id sampleCollection "abcdefabcdefabcdefabcdef" sampleIdA
      sampleDocA "u1" "A" "a" rfl (by decide) (by decide) rfl rfl rfl).2
      (by rw [String.toLower, String.map_eq]; rfl)⟩

/-- C3: for an id string that parses and matches no stored document, `ReadPost`
returns `NotFound` and no record, whatever the outcome of the driver call. -/
theorem ReadPost_absent_id_not_found (c : Collection) (postId : String) (oid : ObjectID)
    (hparse : ObjectIDFromHex postId = .ok oid) (habs : ∀ d ∈ c.docs, d.id ≠ oid) :
    (ReadPost c postId).1 = .error .NotFound := by
  rw [ReadPost_eq c postId oid hparse]
  cases hc : c.fails 0 with
  | true => rw [FindOne_failed c oid hc]
  | false => rw [FindOne_absent c oid hc (find_of_absent c.docs oid habs)]

/-- C3 on the sample collection, for an id no record carries. -/
theorem ReadPost_absent_id_not_found_witness :
    (ReadPost sampleCollection "0123456789abcdef01234567").1 = .error .NotFound :=
  ReadPost_absent_id_not_found sampleCollection "0123456789abcdef01234567"
    [1, 35, 69, 103, 137, 171, 205, 239, 1, 35, 69, 103] rfl (by decide)

/-- C4: when the id of an `UpdatePost` request parses and matches a stored
record, and the find-one and replace calls go through, `UpdatePost` returns the
record with the fetched id and the owner, title and body of the request, and
afterwards the collection holds exactly that record under that id (the ids in
the collection being the same as before). -/
theorem UpdatePost_returns_and_stores_request_fields (c : Collection) (post : Post)
    (oid : ObjectID) (d : Document) (u t b : String)
    (hparse : ObjectIDFromHex post.Id = .ok oid) (hu : c.uniqueIds)
    (hd : d ∈ c.docs) (hid : d.id = oid) (hf : d.fields = some (u, t, b))
    (hfind : c.fails 0 = false) (hwrite : c.fails 1 = false) :
    (UpdatePost c post).1
      = .ok { Id := Hex d.id, UserId := post.UserId, Title := post.Title, Body := post.Body } ∧
    (UpdatePost c post).2.docs.find? (fun x => x.id = oid)
      = some { id := d.id, fields := some (post.UserId, post.Title, post.Body) } ∧
    decodeDoc { id := d.id, fields := some (post.UserId, post.Title, post.Body) }
      = .ok { ID := d.id, UserID := post.UserId, Title := post.Title, Body := post.Body } ∧
    (UpdatePost c post).2.docs.map Document.id = c.docs.map Document.id := by
  have hfd : c.docs.find? (fun x => x.id = oid) = some d := by
    rw [← hid]
    exact find_of_mem c.docs d hu hd
  have hw : (c.issue (.FindOne oid)).2.fails 0 = false := by rw [issue_fails]; exact hwrite
  obtain ⟨ds, h1, h2, h3⟩ := ReplaceOne_found (c.issue (.FindOne oid)).2 oid
    { ID := d.id, UserID := post.UserId, Title := post.Title, Body := post.Body } d hw
    (by rw [issue_docs]; exact hfd) hid
  rw [UpdatePost_eq c post oid hparse, FindOne_found c oid d hfind hfd,
    decodeDoc_of_fields d u t b hf]
  simp only [h1]
  rw [issue_docs] at h3
  refine ⟨rfl, ?_, rfl, h3⟩
  rw [h2, hid]

/-- C4 on the sample collection, rewriting its first record. -/
theorem UpdatePost_returns_and_stores_request_fields_witness :
    (UpdatePost sampleCollection ⟨"abcdefabcdefabcdefabcdef", "u9", "t", "b"⟩).1
      = .ok { Id := Hex sampleDocA.id, UserId := "u9", Title := "t", Body := "b" } ∧
    (UpdatePost sampleCollection ⟨"abcdefabcdefabcdefabcdef", "u9", "t", "b"⟩).2.docs.find?
        (fun x => x.id = sampleIdA)
      = some { id := sampleDocA.id, fields := some ("u9", "t", "b") } ∧
    decodeDoc { id := sampleDocA.id, fields := some ("u9", "t", "b") }
      = .ok { ID := sampleDocA.id, UserID := "u9", Title := "t", Body := "b" } ∧
    (UpdatePost sampleCollection ⟨"abcdefabcdefabcdefabcdef", "u9", "t", "b"⟩).2.docs.map
        Document.id
      = sampleCollection.docs.map Document.id :=
  UpdatePost_returns_and_stores_request_fields sampleCollection
    ⟨"abcdefabcdefabcdefabcdef", "u9", "t", "b"⟩ sampleIdA sampleDocA "u1" "A" "a"
    rfl (by decide) (by decide) rfl rfl rfl rfl

/-- C5: after a successful `UpdatePost`, a `ReadPost` of the same id string with
nothing in between (its find-one call going through) returns the very record
`UpdatePost` returned: the same id, and the owner, title and body just written. -/
theorem UpdatePost_then_ReadPost_reads_the_write (c : Collection) (post r : Post)
    (hup : (UpdatePost c post).1 = .ok r)
    (hread : (UpdatePost c post).2.fails 0 = false) :
    (ReadPost (UpdatePost c post).2 post.Id).1 = .ok r ∧
    r.UserId = post.UserId ∧ r.Title = post.Title ∧ r.Body = post.Body := by
  cases hparse : ObjectIDFromHex post.Id with
  | error e =>
    rw [(invalid_id_rejected_aux c post e hparse).2.1] at hup
    cases hup
  | ok oid =>
    rw [UpdatePost_eq c post oid hparse] at hup hread ⊢
    cases hfo : (FindOne c oid).1 with
    | error e => simp only [hfo] at hup; cases hup
    | ok data =>
      obtain ⟨_, d, hfd, hdec⟩ := FindOne_ok c oid data hfo
      obtain ⟨hdid, _⟩ := decodeDoc_ok d data hdec
      have hid : data.ID = oid := by rw [hdid]; exact (find_id c.docs oid d hfd).1
      simp only [hfo] at hup hread ⊢
      cases hro : (ReplaceOne (c.issue (.FindOne oid)).2 oid
          { data with UserID := post.UserId, Title := post.Title, Body := post.Body }).1 with
      | error e => simp only [hro] at hup; cases hup
      | ok n =>
        have hw := ReplaceOne_ok _ _ _ n hro
        obtain ⟨ds, h1, h2, _⟩ := ReplaceOne_found (c.issue (.FindOne oid)).2 oid
          { data with UserID := post.UserId, Title := post.Title, Body := post.Body } d hw
          (by rw [issue_docs]; exact hfd) hid
        simp only [h1] at hup hread ⊢
        simp only [Except.ok.injEq] at hup
        subst hup
        refine ⟨?_, rfl, rfl, rfl⟩
        rw [ReadPost_eq _ post.Id oid hparse, FindOne_found _ oid _ hread h2]
        simp only [decodeDoc, dataToPostPb, hid]

/-- C5 on the sample collection: the first record is rewritten, then read. -/
theorem UpdatePost_then_ReadPost_reads_the_write_witness :
    (ReadPost (UpdatePost sampleCollection ⟨"abcdefabcdefabcdefabcdef", "u9", "t", "b"⟩).2
        "abcdefabcdefabcdefabcdef").1
      = .ok { Id := "abcdefabcdefabcdefabcdef", UserId := "u9", Title := "t", Body := "b" } :=
  (UpdatePost_then_ReadPost_reads_the_write sampleCollection
    ⟨"abcdefabcdefabcdefabcdef", "u9", "t", "b"⟩
    { Id := "abcdefabcdefabcdefabcdef", UserId := "u9", Title := "t", Body := "b" } rfl rfl).1

/-- C6: for an id string that parses and matches a stored document, the delete
calls going through, the first `DeletePost` succeeds and returns the id string
of the request; a second `DeletePost` of the same id right after it returns
`NotFound`, the store finding nothing to remove and staying as it is. -/
theorem DeletePost_twice_not_found (c : Collection) (postId : String) (oid : ObjectID)
    (d : Document) (hparse : ObjectIDFromHex postId = .ok oid) (hu : c.uniqueIds)
    (hd : d ∈ c.docs) (hid : d.id = oid)
    (hfirst : c.fails 0 = false) (hsecond : c.fails 1 = false) :
    (DeletePost c postId).1 = .ok postId ∧
    (DeletePost (DeletePost c postId).2 postId).1 = .error .NotFound ∧
    (deleteFirst oid (DeletePost c postId).2.docs).2 = 0 ∧
    (DeletePost (DeletePost c postId).2 postId).2.docs = (DeletePost c postId).2.docs := by
  obtain ⟨hone, hgone⟩ := deleteFirst_present oid c.docs hu d hd hid
  have h1 : DeletePost c postId = (.ok postId,
      { (c.issue (.DeleteOne oid)).2 with docs := (deleteFirst oid c.docs).1 }) := by
    rw [DeletePost_eq c postId oid hparse]
    simp [hfirst, hone]
  have hz := deleteFirst_absent oid (deleteFirst oid c.docs).1 hgone
  have hf2 : (Collection.mk (deleteFirst oid c.docs).1 (c.issue (.DeleteOne oid)).2.faults
      (c.issue (.DeleteOne oid)).2.calls).fails 0 = false := by
    have := issue_fails c (.DeleteOne oid) 0
    rw [hsecond] at this
    exact this
  rw [h1]
  refine ⟨rfl, ?_, ?_, ?_⟩
  · rw [DeletePost_eq _ postId oid hparse]
    simp only [hf2, hz]
    rfl
  · simp only [hz]
  · rw [DeletePost_eq _ postId oid hparse]
    simp only [hf2, hz]
    rfl

/-- C6 on the sample collection: the second record is deleted twice. -/
theorem DeletePost_twice_not_found_witness :
    (DeletePost sampleCollection "000000000000000000000002").1
      = .ok "000000000000000000000002" ∧
    (DeletePost (DeletePost sampleCollection "000000000000000000000002").2
      "000000000000000000000002").1 = .error .NotFound ∧
    (deleteFirst sampleIdB
      (DeletePost sampleCollection "000000000000000000000002").2.docs).2 = 0 ∧
    (DeletePost (DeletePost sampleCollection "000000000000000000000002").2
      "000000000000000000000002").2.docs
      = (DeletePost sampleCollection "000000000000000000000002").2.docs :=
  DeletePost_twice_not_found sampleCollection "000000000000000000000002" sampleIdB
    sampleDocB rfl (by decide) (by decide) rfl rfl rfl

/-- C8: the find-one call of `ReadPost` and of `UpdatePost` reports every
failure as `NotFound`, never as `Internal`: here for a stored document with the
requested id that does not unmarshal, and for a stored record that cannot be
fetched because the call fails. -/
theorem find_one_failure_reported_as_NotFound :
    ObjectIDFromHex "abcdefabcdefabcdefabcdef" = .ok sampleIdA ∧
    (∃ d ∈ undecodableCollection.docs, d.id = sampleIdA) ∧
    (ReadPost undecodableCollection "abcdefabcdefabcdefabcdef").1 = .error .NotFound ∧
    (UpdatePost undecodableCollection ⟨"abcdefabcdefabcdefabcdef", "u9", "t", "b"⟩).1
      = .error .NotFound ∧
    sampleDocA ∈ unreachableCollection.docs ∧ sampleDocA.id = sampleIdA ∧
    (ReadPost unreachableCollection "abcdefabcdefabcdefabcdef").1 = .error .NotFound ∧
    (UpdatePost unreachableCollection ⟨"abcdefabcdefabcdefabcdef", "u9", "t", "b"⟩).1
      = .error .NotFound :=
  ⟨rfl, ⟨_, List.mem_cons_self _ _, rfl⟩, rfl, rfl, by decide, rfl, rfl, rfl⟩

theorem UpdatePost_docs_filter (c : Collection) (post : Post) (oid : ObjectID)
    (hparse : ObjectIDFromHex post.Id = .ok oid) :
    (UpdatePost c post).2.docs.filter (fun x => x.id ≠ oid)
      = c.docs.filter (fun x => x.id ≠ oid) := by
  rw [UpdatePost_eq c post oid hparse]
  cases (FindOne c oid).1 with
  | error e => rfl
  | ok data =>
    have h := ReplaceOne_docs_filter (c.issue (.FindOne oid)).2 oid
      { data with UserID := post.UserId, Title := post.Title, Body := post.Body }
    rw [issue_docs] at h
    cases hro : (ReplaceOne (c.issue (.FindOne oid)).2 oid
        { data with UserID := post.UserId, Title := post.Title, Body := post.Body }).1 with
    | error e => simp only [hro]; exact h
    | ok n => simp only [hro]; exact h

theorem UpdatePost_docs_of_rejected (c : Collection) (post : Post)
    (h : (UpdatePost c post).1 = .error .InvalidArgument ∨
      (UpdatePost c post).1 = .error .NotFound) :
    (UpdatePost c post).2.docs = c.docs := by
  cases hparse : ObjectIDFromHex post.Id with
  | error e => rw [(invalid_id_rejected_aux c post e hparse).2.1]
  | ok oid =>
    rw [UpdatePost_eq c post oid hparse] at h ⊢
    cases hfo : (FindOne c oid).1 with
    | error e => rfl
    | ok data =>
      simp only [hfo] at h ⊢
      cases hro : (ReplaceOne (c.issue (.FindOne oid)).2 oid
          { data with UserID := post.UserId, Title := post.Title, Body := post.Body }).1 with
      | error e => simp [hro] at h
      | ok n => simp [hro] at h

theorem DeletePost_docs_filter (c : Collection) (postId : String) (oid : ObjectID)
    (hparse : ObjectIDFromHex postId = .ok oid) :
    (DeletePost c postId).2.docs.filter (fun x => x.id ≠ oid)
      = c.docs.filter (fun x => x.id ≠ oid) := by
  rw [DeletePost_eq c postId oid hparse]
  split_ifs
  · rfl
  · exact deleteFirst_frame oid c.docs
  · exact deleteFirst_frame oid c.docs

theorem DeletePost_docs_of_rejected (c : Collection) (post : Post)
    (h : (DeletePost c post.Id).1 = .error .InvalidArgument ∨
      (DeletePost c post.Id).1 = .error .NotFound) :
    (DeletePost c post.Id).2.docs = c.docs := by
  cases hparse : ObjectIDFromHex post.Id with
  | error e => rw [(invalid_id_rejected_aux c post e hparse).2.2]
  | ok oid =>
    rw [DeletePost_eq c post.Id oid hparse] at h ⊢
    split_ifs at h ⊢ with h1 h2
    · simp at h
    · exact deleteFirst_zero oid c.docs h2
    · simp at h

theorem mem_of_filter_eq (oid : ObjectID) (xs ys : List Document)
    (h : ys.filter (fun x => x.id ≠ oid) = xs.filter (fun x => x.id ≠ oid))
    (d : Document) (hd : d ∈ xs) (hne : d.id ≠ oid) : d ∈ ys := by
  have h1 : d ∈ xs.filter (fun x => x.id ≠ oid) := by
    rw [List.mem_filter]
    exact ⟨hd, by simpa using hne⟩
  rw [← h] at h1
  exact (List.mem_filter.mp h1).1

/-- C10: `UpdatePost` and `DeletePost`, whatever they return, leave every stored
document whose id is not the parsed request id in place and unchanged (the
documents with another id are the same, in the same order, before and after);
and when the handler returns `InvalidArgument` or `NotFound` the documents of
the collection are the same as before the call. -/
theorem UpdatePost_DeletePost_leave_other_records (c : Collection) (post : Post) :
    (∀ oid, ObjectIDFromHex post.Id = .ok oid →
      (UpdatePost c post).2.docs.filter (fun x => x.id ≠ oid)
        = c.docs.filter (fun x => x.id ≠ oid) ∧
      (DeletePost c post.Id).2.docs.filter (fun x => x.id ≠ oid)
        = c.docs.filter (fun x => x.id ≠ oid)) ∧
    (∀ d ∈ c.docs, ObjectIDFromHex post.Id ≠ .ok d.id →
      d ∈ (UpdatePost c post).2.docs ∧ d ∈ (DeletePost c post.Id).2.docs) ∧
    ((UpdatePost c post).1 = .error .InvalidArgument ∨
      (UpdatePost c post).1 = .error .NotFound → (UpdatePost c post).2.docs = c.docs) ∧
    ((DeletePost c post.Id).1 = .error .InvalidArgument ∨
      (DeletePost c post.Id).1 = .error .NotFound →
      (DeletePost c post.Id).2.docs = c.docs) := by
  refine ⟨fun oid hparse => ⟨UpdatePost_docs_filter c post oid hparse,
      DeletePost_docs_filter c post.Id oid hparse⟩, ?_,
    UpdatePost_docs_of_rejected c post, DeletePost_docs_of_rejected c post⟩
  intro d hd hne
  cases hparse : ObjectIDFromHex post.Id with
  | error e =>
    rw [(invalid_id_rejected_aux c post e hparse).2.1,
      (invalid_id_rejected_aux c post e hparse).2.2]
    exact ⟨hd, hd⟩
  | ok oid =>
    have hdo : d.id ≠ oid := by
      intro e
      exact hne (by rw [hparse, e])
    exact ⟨mem_of_filter_eq oid c.docs _ (UpdatePost_docs_filter c post oid hparse) d hd hdo,
      mem_of_filter_eq oid c.docs _ (DeletePost_docs_filter c post.Id oid hparse) d hd hdo⟩

/-- C10 on the sample collections: the second record survives an update and a delete of the first, and a rejected call changes nothing. -/
theorem UpdatePost_DeletePost_leave_other_records_witness :
    sampleDocB ∈ (UpdatePost sampleCollection ⟨"abcdefabcdefabcdefabcdef", "u9", "t", "b"⟩).2.docs ∧
    sampleDocB ∈ (DeletePost sampleCollection "abcdefabcdefabcdefabcdef").2.docs ∧
    (UpdatePost unreachableCollection ⟨"abcdefabcdefabcdefabcdef", "u9", "t", "b"⟩).2.docs
      = unreachableCollection.docs ∧
    (DeletePost sampleCollection "0123456789abcdef01234567").2.docs = sampleCollection.docs :=
  ⟨((UpdatePost_DeletePost_leave_other_records sampleCollection
      ⟨"abcdefabcdefabcdefabcdef", "u9", "t", "b"⟩).2.1 sampleDocB (by decide)
      (by intro h; cases h)).1,
   ((UpdatePost_DeletePost_leave_other_records sampleCollection
      ⟨"abcdefabcdefabcdefabcdef", "u9", "t", "b"⟩).2.1 sampleDocB (by decide)
      (by intro h; cases h)).2,
   (UpdatePost_DeletePost_leave_other_records unreachableCollection
      ⟨"abcdefabcdefabcdefabcdef", "u9", "t", "b"⟩).2.2.1 (Or.inr rfl),
   (UpdatePost_DeletePost_leave_other_records sampleCollection
      ⟨"0123456789abcdef01234567", "u9", "t", "b"⟩).2.2.2 (Or.inr rfl)⟩

/-! ## The streaming loop -/

theorem afterNext_fails (c : Collection) (n i : Nat) :
    (c.afterNext n).fails i = c.fails (n + i) := by
  simp [Collection.afterNext, Collection.fails, List.getD_eq_getElem?_getD, List.getElem?_drop]

theorem afterSent_sendFails (st : GetPostsServer) (items : List Post) (i : Nat) :
    (st.afterSent items).sendFails i = st.sendFails (items.length + i) := by
  simp [GetPostsServer.afterSent, GetPostsServer.sendFails, List.getD_eq_getElem?_getD,
    List.getElem?_drop]

theorem Send_ok (st : GetPostsServer) (item : Post) (h : st.sendFails 0 = false) :
    st.Send item = (false, st.afterSent [item]) := by
  cases st with
  | mk sent sendFaults =>
    cases sendFaults with
    | nil => rfl
    | cons b bs =>
      have hb : b = false := h
      subst hb
      rfl

theorem Send_failed (st : GetPostsServer) (item : Post) (h : st.sendFails 0 = true) :
    st.Send item = (true, { st with sendFaults := st.sendFaults.drop 1 }) := by
  cases st with
  | mk sent sendFaults =>
    cases sendFaults with
    | nil => cases h
    | cons b bs =>
      have hb : b = true := h
      subst hb
      rfl

theorem issue_Next (c : Collection) : (c.issue .CursorNext).2 = c.afterNext 1 := by
  cases c with
  | mk docs faults calls => cases faults <;> rfl

theorem afterNext_afterNext (c : Collection) (m n : Nat) :
    (c.afterNext m).afterNext n = c.afterNext (m + n) := by
  simp only [Collection.afterNext, List.drop_drop, List.append_assoc, List.replicate_add]

theorem afterSent_afterSent (st : GetPostsServer) (xs ys : List Post) :
    (st.afterSent xs).afterSent ys = st.afterSent (xs ++ ys) := by
  simp only [GetPostsServer.afterSent, List.drop_drop, List.append_assoc, List.length_append]

theorem getPostsLoop_iteration_error (docs : List Document) (c : Collection)
    (st : GetPostsServer) (h : c.fails 0 = true) :
    getPostsLoop docs c st = (.error .Internal, c.afterNext 1, st) := by
  cases docs <;> simp [getPostsLoop, issue_fst, h, issue_Next]

theorem getPostsLoop_nil (c : Collection) (st : GetPostsServer) (h : c.fails 0 = false) :
    getPostsLoop [] c st = (.ok (), c.afterNext 1, st) := by
  simp [getPostsLoop, issue_fst, h, issue_Next]

theorem getPostsLoop_decode_error (d : Document) (rest : List Document) (c : Collection)
    (st : GetPostsServer) (h : c.fails 0 = false) (hd : d.fields = none) :
    getPostsLoop (d :: rest) c st = (.error .Internal, c.afterNext 1, st) := by
  simp [getPostsLoop, issue_fst, h, issue_Next, decodeDoc, hd]

theorem getPostsLoop_send_error (d : Document) (rest : List Document) (c : Collection)
    (st : GetPostsServer) (data : postItem) (h : c.fails 0 = false)
    (hd : decodeDoc d = .ok data) (hs : st.sendFails 0 = true) :
    getPostsLoop (d :: rest) c st
      = (.error .Internal, c.afterNext 1, { st with sendFaults := st.sendFaults.drop 1 }) := by
  simp [getPostsLoop, issue_fst, h, issue_Next, hd, Send_failed st _ hs]

theorem getPostsLoop_step (d : Document) (rest : List Document) (c : Collection)
    (st : GetPostsServer) (data : postItem) (h : c.fails 0 = false)
    (hd : decodeDoc d = .ok data) (hs : st.sendFails 0 = false) :
    getPostsLoop (d :: rest) c st
      = getPostsLoop rest (c.afterNext 1) (st.afterSent [dataToPostPb data]) := by
  simp [getPostsLoop, issue_fst, h, issue_Next, hd, Send_ok st _ hs]

theorem getPostsLoop_delivered (pre : List Document) :
    ∀ (items : List postItem) (rest : List Document) (c : Collection) (st : GetPostsServer),
      pre.map decodeDoc = items.map .ok →
      (∀ i < pre.length, c.fails i = false) →
      (∀ i < pre.length, st.sendFails i = false) →
      getPostsLoop (pre ++ rest) c st
        = getPostsLoop rest (c.afterNext pre.length) (st.afterSent (items.map dataToPostPb)) := by
  induction pre with
  | nil =>
    intro items rest c st hdec _ _
    have hi : items = [] := by
      cases items with
      | nil => rfl
      | cons x xs => simp at hdec
    subst hi
    cases c
    cases st
    simp [Collection.afterNext, GetPostsServer.afterSent]
  | cons d pre ih =>
    intro items rest c st hdec hc hs
    cases items with
    | nil => simp at hdec
    | cons it items =>
      simp only [List.map_cons, List.cons.injEq] at hdec
      have h0 : c.fails 0 = false := hc 0 (by simp)
      have s0 : st.sendFails 0 = false := hs 0 (by simp)
      rw [List.cons_append, getPostsLoop_step d (pre ++ rest) c st it h0 hdec.1 s0,
        ih items rest (c.afterNext 1) (st.afterSent [dataToPostPb it]) hdec.2]
      · rw [afterNext_afterNext, afterSent_afterSent]
        simp [Nat.add_comm]
      · intro i hi
        rw [afterNext_fails]
        exact hc (1 + i) (by simp only [List.length_cons]; omega)
      · intro i hi
        rw [afterSent_sendFails]
        exact hs (1 + i) (by simp only [List.length_cons, List.length_singleton]; omega)

theorem getPostsLoop_calls (docs : List Document) :
    ∀ (c : Collection) (st : GetPostsServer),
      ∃ k, (getPostsLoop docs c st).2.1 = c.afterNext (k + 1) := by
  induction docs with
  | nil =>
    intro c st
    refine ⟨0, ?_⟩
    cases h : c.fails 0 with
    | true => rw [getPostsLoop_iteration_error [] c st h]
    | false => rw [getPostsLoop_nil c st h]
  | cons d rest ih =>
    intro c st
    cases h : c.fails 0 with
    | true => exact ⟨0, by rw [getPostsLoop_iteration_error _ c st h]⟩
    | false =>
      cases hd : decodeDoc d with
      | error e =>
        have hf : d.fields = none := by
          unfold decodeDoc at hd
          cases hfd : d.fields with
          | none => rfl
          | some v => simp [hfd] at hd
        exact ⟨0, by rw [getPostsLoop_decode_error d rest c st h hf]⟩
      | ok data =>
        cases hs : st.sendFails 0 with
        | true => exact ⟨0, by rw [getPostsLoop_send_error d rest c st data h hd hs]⟩
        | false =>
          obtain ⟨k, hk⟩ := ih (c.afterNext 1) (st.afterSent [dataToPostPb data])
          refine ⟨k + 1, ?_⟩
          rw [getPostsLoop_step d rest c st data h hd hs, hk, afterNext_afterNext]
          congr 1
          omega

theorem getPostsLoop_code (docs : List Document) :
    ∀ (c : Collection) (st : GetPostsServer),
      (getPostsLoop docs c st).1 = .ok () ∨ (getPostsLoop docs c st).1 = .error .Internal := by
  induction docs with
  | nil =>
    intro c st
    cases h : c.fails 0 with
    | true => rw [getPostsLoop_iteration_error [] c st h]; exact Or.inr rfl
    | false => rw [getPostsLoop_nil c st h]; exact Or.inl rfl
  | cons d rest ih =>
    intro c st
    cases h : c.fails 0 with
    | true => rw [getPostsLoop_iteration_error _ c st h]; exact Or.inr rfl
    | false =>
      cases hd : decodeDoc d with
      | error e =>
        have hf : d.fields = none := by
          unfold decodeDoc at hd
          cases hfd : d.fields with
          | none => rfl
          | some v => simp [hfd] at hd
        rw [getPostsLoop_decode_error d rest c st h hf]
        exact Or.inr rfl
      | ok data =>
        cases hs : st.sendFails 0 with
        | true => rw [getPostsLoop_send_error d rest c st data h hd hs]; exact Or.inr rfl
        | false =>
          rw [getPostsLoop_step d rest c st data h hd hs]
          exact ih _ _

theorem issue_Find_fails (c : Collection) (i : Nat) :
    (c.issue .Find).2.fails i = c.fails (i + 1) := issue_fails c .Find i

theorem GetPosts_eq (c : Collection) (st : GetPostsServer) (hfind : c.fails 0 = false) :
    GetPosts c st =
      ((getPostsLoop c.docs (c.issue .Find).2 st).1,
       ((getPostsLoop c.docs (c.issue .Find).2 st).2.1.issue .CursorClose).2,
       (getPostsLoop c.docs (c.issue .Find).2 st).2.2) := by
  unfold GetPosts
  simp [issue_fst, hfind]

/-- The result and the stream of `GetPosts` once the cursor is open and the
records of `pre` have been delivered. -/
theorem GetPosts_delivered (c : Collection) (st : GetPostsServer) (pre rest : List Document)
    (items : List postItem) (hfind : c.fails 0 = false) (hdocs : c.docs = pre ++ rest)
    (hdec : pre.map decodeDoc = items.map .ok)
    (hnext : ∀ i < pre.length, c.fails (i + 1) = false)
    (hsend : ∀ i < pre.length, st.sendFails i = false) :
    (GetPosts c st).1
      = (getPostsLoop rest ((c.issue .Find).2.afterNext pre.length)
          (st.afterSent (items.map dataToPostPb))).1 ∧
    (GetPosts c st).2.2
      = (getPostsLoop rest ((c.issue .Find).2.afterNext pre.length)
          (st.afterSent (items.map dataToPostPb))).2.2 := by
  rw [GetPosts_eq c st hfind, hdocs,
    getPostsLoop_delivered pre items rest (c.issue .Find).2 st hdec
      (fun i hi => by rw [issue_Find_fails]; exact hnext i hi) hsend]
  exact ⟨rfl, rfl⟩

/-! ## Claims about the streaming handler -/

/-- C7: when the collection holds N documents that all decode (to `items`, in
the order of the traversal), the `Find` call and the N+1 `cursor.Next` calls go
through and the first N `Send` calls succeed, `GetPosts` delivers exactly the N
items `dataToPostPb` of the stored records, one per record and in that order,
and returns without error. -/
theorem GetPosts_streams_every_record (c : Collection) (st : GetPostsServer)
    (items : List postItem) (hdec : c.docs.map decodeDoc = items.map .ok)
    (hcalls : ∀ i ≤ c.docs.length + 1, c.fails i = false)
    (hsend : ∀ i < c.docs.length, st.sendFails i = false) :
    (GetPosts c st).1 = .ok () ∧
    (GetPosts c st).2.2.sent = st.sent ++ items.map dataToPostPb ∧
    (items.map dataToPostPb).length = c.docs.length := by
  have hfind : c.fails 0 = false := hcalls 0 (Nat.zero_le _)
  obtain ⟨h1, h2⟩ := GetPosts_delivered c st c.docs [] items hfind (List.append_nil _).symm hdec
    (fun i hi => hcalls (i + 1) (by omega)) hsend
  have hlast : ((c.issue .Find).2.afterNext c.docs.length).fails 0 = false := by
    rw [afterNext_fails, issue_Find_fails]
    exact hcalls _ (by omega)
  rw [getPostsLoop_nil _ _ hlast] at h1 h2
  refine ⟨h1, by rw [h2]; rfl, ?_⟩
  have hl := congrArg List.length hdec
  simp only [List.length_map] at hl ⊢
  exact hl.symm

/-- C7 on the sample collection and an empty stream. -/
theorem GetPosts_streams_every_record_witness :
    (GetPosts sampleCollection ⟨[], []⟩).1 = .ok () ∧
    (GetPosts sampleCollection ⟨[], []⟩).2.2.sent
      = [] ++ [{ ID := sampleIdA, UserID := "u1", Title := "A", Body := "a" },
          { ID := sampleIdB, UserID := "u2", Title := "B", Body := "b" }].map dataToPostPb ∧
    ([{ ID := sampleIdA, UserID := "u1", Title := "A", Body := "a" },
      { ID := sampleIdB, UserID := "u2", Title := "B", Body := "b" }].map dataToPostPb).length
      = sampleCollection.docs.length :=
  GetPosts_streams_every_record sampleCollection ⟨[], []⟩
    [{ ID := sampleIdA, UserID := "u1", Title := "A", Body := "a" },
     { ID := sampleIdB, UserID := "u2", Title := "B", Body := "b" }] rfl
    (fun i _ => by simp [Collection.fails, sampleCollection])
    (fun i _ => by simp [GetPostsServer.sendFails])

theorem GetPosts_calls (c : Collection) (st : GetPostsServer) (hfind : c.fails 0 = false) :
    ∃ k, (GetPosts c st).2.1.calls
      = c.calls ++ .Find :: (List.replicate k .CursorNext ++ [.CursorClose]) := by
  obtain ⟨k, hk⟩ := getPostsLoop_calls c.docs (c.issue .Find).2 st
  refine ⟨k + 1, ?_⟩
  rw [GetPosts_eq c st hfind]
  simp only [hk]
  simp [Collection.issue, Collection.afterNext]

/-- C9: once `GetPosts` has obtained its cursor (the `Find` call went through),
the driver calls it issues are `Find`, then `cursor.Next` some number of times,
then `cursor.Close` once and last, on every path; the result is success or an
error of kind `Internal`.  With the records of `pre` delivered before it, an
iteration error of the cursor, a document that does not decode, and a failing
`Send` each end the call with `Internal`, the delivered items being those of
`pre` and no `Send` being attempted after the failure; and with `pre` the whole
collection the call ends without error. -/
theorem GetPosts_closes_cursor_once (c : Collection) (st : GetPostsServer)
    (hfind : c.fails 0 = false) :
    (∃ k, (GetPosts c st).2.1.calls
      = c.calls ++ .Find :: (List.replicate k .CursorNext ++ [.CursorClose])) ∧
    (GetPosts c st).2.1.calls.count .CursorClose = c.calls.count .CursorClose + 1 ∧
    ((GetPosts c st).1 = .ok () ∨ (GetPosts c st).1 = .error .Internal) ∧
    (∀ (pre rest : List Document) (items : List postItem),
      c.docs = pre ++ rest → pre.map decodeDoc = items.map .ok →
      (∀ i < pre.length, c.fails (i + 1) = false) →
      (∀ i < pre.length, st.sendFails i = false) →
      (c.fails (pre.length + 1) = true →
        (GetPosts c st).1 = .error .Internal ∧
        (GetPosts c st).2.2 = st.afterSent (items.map dataToPostPb)) ∧
      (c.fails (pre.length + 1) = false →
        (∀ d post, rest = d :: post → d.fields = none →
          (GetPosts c st).1 = .error .Internal ∧
          (GetPosts c st).2.2 = st.afterSent (items.map dataToPostPb)) ∧
        (∀ d post data, rest = d :: post → decodeDoc d = .ok data →
          st.sendFails pre.length = true →
          (GetPosts c st).1 = .error .Internal ∧
          (GetPosts c st).2.2.sent = st.sent ++ items.map dataToPostPb ∧
          (GetPosts c st).2.2.sendFaults = st.sendFaults.drop (pre.length + 1)) ∧
        (rest = [] →
          (GetPosts c st).1 = .ok () ∧
          (GetPosts c st).2.2 = st.afterSent (items.map dataToPostPb)))) := by
  refine ⟨GetPosts_calls c st hfind, ?_, ?_, ?_⟩
  · obtain ⟨k, hk⟩ := GetPosts_calls c st hfind
    rw [hk]
    simp [List.count_append, List.count_cons, List.count_replicate]
  · rw [GetPosts_eq c st hfind]
    exact getPostsLoop_code _ _ _
  · intro pre rest items hdocs hdec hnext hsend
    obtain ⟨h1, h2⟩ := GetPosts_delivered c st pre rest items hfind hdocs hdec hnext hsend
    have hlen : (items.map dataToPostPb).length = pre.length := by
      have hl := congrArg List.length hdec
      simp only [List.length_map] at hl ⊢
      exact hl.symm
    have hc : ((c.issue .Find).2.afterNext pre.length).fails 0 = c.fails (pre.length + 1) := by
      rw [afterNext_fails, issue_Find_fails]
    have hs : (st.afterSent (items.map dataToPostPb)).sendFails 0 = st.sendFails pre.length := by
      rw [afterSent_sendFails, hlen]
      rfl
    refine ⟨?_, ?_⟩
    · intro hfail
      rw [← hc] at hfail
      rw [getPostsLoop_iteration_error _ _ _ hfail] at h1 h2
      exact ⟨h1, h2⟩
    · intro hok
      rw [← hc] at hok
      refine ⟨?_, ?_, ?_⟩
      · intro d post hrest hd
        rw [hrest, getPostsLoop_decode_error d post _ _ hok hd] at h1 h2
        exact ⟨h1, h2⟩
      · intro d post data hrest hd hsf
        rw [← hs] at hsf
        rw [hrest, getPostsLoop_send_error d post _ _ data hok hd hsf] at h1 h2
        refine ⟨h1, by rw [h2]; rfl, ?_⟩
        rw [h2]
        simp [GetPostsServer.afterSent, hlen, Nat.add_comm]
      · intro hrest
        rw [hrest, getPostsLoop_nil _ _ hok] at h1 h2
        exact ⟨h1, h2⟩

/-- C9 on the sample collections: one close; an iteration error, a decode failure and a send failure after the first record; and a clean end. -/
theorem GetPosts_closes_cursor_once_witness :
    (GetPosts sampleCollection ⟨[], []⟩).2.1.calls.count .CursorClose
      = sampleCollection.calls.count .CursorClose + 1 ∧
    ((GetPosts interruptedCollection ⟨[], []⟩).1 = .error .Internal ∧
      (GetPosts interruptedCollection ⟨[], []⟩).2.2
        = GetPostsServer.afterSent ⟨[], []⟩
            ([{ ID := sampleIdA, UserID := "u1", Title := "A", Body := "a" }].map dataToPostPb)) ∧
    ((GetPosts halfDecodableCollection ⟨[], []⟩).1 = .error .Internal ∧
      (GetPosts halfDecodableCollection ⟨[], []⟩).2.2
        = GetPostsServer.afterSent ⟨[], []⟩
            ([{ ID := sampleIdA, UserID := "u1", Title := "A", Body := "a" }].map dataToPostPb)) ∧
    ((GetPosts sampleCollection ⟨[], [false, true, true]⟩).1 = .error .Internal ∧
      (GetPosts sampleCollection ⟨[], [false, true, true]⟩).2.2.sent
        = [] ++ [{ ID := sampleIdA, UserID := "u1", Title := "A", Body := "a" }].map
            dataToPostPb ∧
      (GetPosts sampleCollection ⟨[], [false, true, true]⟩).2.2.sendFaults
        = [false, true, true].drop ([sampleDocA].length + 1)) ∧
    ((GetPosts sampleCollection ⟨[], []⟩).1 = .ok () ∧
      (GetPosts sampleCollection ⟨[], []⟩).2.2
        = GetPostsServer.afterSent ⟨[], []⟩
            ([{ ID := sampleIdA, UserID := "u1", Title := "A", Body := "a" },
              { ID := sampleIdB, UserID := "u2", Title := "B", Body := "b" }].map
                dataToPostPb)) :=
  ⟨(GetPosts_closes_cursor_once sampleCollection ⟨[], []⟩ rfl).2.1,
   ((GetPosts_closes_cursor_once interruptedCollection ⟨[], []⟩ rfl).2.2.2
      [sampleDocA] [sampleDocB] [{ ID := sampleIdA, UserID := "u1", Title := "A", Body := "a" }]
      rfl rfl (by decide) (by decide)).1 rfl,
   (((GetPosts_closes_cursor_once halfDecodableCollection ⟨[], []⟩ rfl).2.2.2
      [sampleDocA] [{ id := sampleIdB, fields := none }]
      [{ ID := sampleIdA, UserID := "u1", Title := "A", Body := "a" }]
      rfl rfl (by decide) (by decide)).2 rfl).1 _ _ rfl rfl,
   (((GetPosts_closes_cursor_once sampleCollection ⟨[], [false, true, true]⟩ rfl).2.2.2
      [sampleDocA] [sampleDocB] [{ ID := sampleIdA, UserID := "u1", Title := "A", Body := "a" }]
      rfl rfl (by decide) (by decide)).2 rfl).2.1 _ _
      { ID := sampleIdB, UserID := "u2", Title := "B", Body := "b" } rfl rfl rfl,
   (((GetPosts_closes_cursor_once sampleCollection ⟨[], []⟩ rfl).2.2.2
      [sampleDocA, sampleDocB] []
      [{ ID := sampleIdA, UserID := "u1", Title := "A", Body := "a" },
       { ID := sampleIdB, UserID := "u2", Title := "B", Body := "b" }]
      rfl rfl (by decide) (by decide)).2 rfl).2.2 rfl⟩

end PostService
